import Mathlib

/-!
Verification development for the virtual-energy-trader analytics core.

The JavaScript sources are embedded shallowly:

* `src/server/utils/trading.js` — the settlement engine (`simulateTradeExecution`);
* `src/server/utils/marketData.js` (source file `transformGridStatusData` and helpers) —
  the time-series reconstructor;
* `src/server/services/gridstatus.js` — the raw-data emptiness check of `getMarketPrices`;
* `src/server/services/spikeAnalyzer.js` — spike detection, deduplication and
  grid-event synthesis.

Modelling conventions:

* JavaScript numbers are modelled by `ℚ` (exact arithmetic).  `NaN` values that the
  code can actually produce on a claim-relevant path are modelled by `Option ℚ`
  (`none` = `NaN`); otherwise `ℚ` division-by-zero silently yields `0`.
* Timestamp strings are abstracted to their parsed content: wall-clock hour/minute
  for the reconstructor (the JS derives them via `Date`/`toLocaleString`), and epoch
  milliseconds for spike timestamps (the JS uses `new Date(t).getTime()`).
* `Math.random()` and `Date.now()` are modelled by explicit oracle parameters or
  omitted when no claim mentions the affected field.
-/

/-! ## Settlement engine — `src/server/utils/trading.js` -/

/-- A user bid, as consumed by `simulateTradeExecution` (`trading.js`).
`type` is the literal string `"buy"` or `"sell"` in well-formed input. -/
structure Bid where
  id : String
  hour : ℕ
  type : String
  price : ℚ
  quantity : ℚ
deriving DecidableEq

/-- One 15-minute interval price inside a real-time hour entry
(an element of `realTimePrices[h].prices` produced by `transformGridStatusData`). -/
structure IntervalPrice where
  interval : ℕ
  price : ℚ
  dataQuality : String
deriving DecidableEq

/-- An hourly day-ahead entry (`dayAheadPrices[h]` produced by
`transformGridStatusData`).  The `timestamp` string field of the JS object is
omitted: it is a wall-clock copy that no claim mentions. -/
structure DayAheadEntry where
  hour : ℕ
  price : ℚ
  dataQuality : String
  recordCount : ℕ
  sourceHour : ℕ
deriving DecidableEq

/-- An hourly real-time entry (`realTimePrices[h]` produced by
`transformGridStatusData`). -/
structure RealTimeEntry where
  hour : ℕ
  prices : List IntervalPrice
  dataQuality : String
  recordCount : ℕ
  sourceHour : ℕ
deriving DecidableEq

/-- The per-bid result pushed onto `results` by `simulateTradeExecution`.
The JS spreads the bid's own fields into the result object; here the bid is kept
as a `bid` field.  `reason` models the JS `reason` key (set only in the
price-mismatch branch) and `error` models the JS `error` key (set only in the
missing-market-data branch); a key absent from the JS object is `none`. -/
structure TradeResult where
  bid : Bid
  executed : Bool
  executionPrice : Option ℚ
  avgRealTimePrice : Option ℚ
  profit : ℚ
  profitPerMWh : Option ℚ
  reason : Option String
  error : Option String
deriving DecidableEq

/-- The `summary` object of `simulateTradeExecution`'s return value.
`successRate` is `(executedTrades / totalBids) * 100` in the JS; with zero bids
that division is `0 / 0 = NaN`, modelled here as `none`. -/
structure TradeSummary where
  totalBids : ℕ
  executedTrades : ℕ
  successRate : Option ℚ
  avgProfitPerTrade : ℚ
deriving DecidableEq

/-- The full return value of `simulateTradeExecution`. -/
structure SimulationResult where
  trades : List TradeResult
  totalProfit : ℚ
  summary : TradeSummary
deriving DecidableEq

/-- The body of the `bids.forEach` loop of `simulateTradeExecution`
(`trading.js` lines 12-61), for one bid: look up the bid's hour in both price
arrays, decide execution and compute profit.  The non-executed `reason` message
of the JS interpolates the two prices via `toFixed(2)`; the embedding keeps the
constant part of the message and abstracts the numerals. -/
def processBid (dayAheadPrices : List DayAheadEntry) (realTimePrices : List RealTimeEntry)
    (bid : Bid) : TradeResult :=
  match dayAheadPrices.find? (fun d => d.hour == bid.hour),
        realTimePrices.find? (fun r => r.hour == bid.hour) with
  | some hourData, some rtData =>
      let daPrice := hourData.price
      let avgRtPrice := (rtData.prices.map (·.price)).sum / (rtData.prices.length : ℚ)
      if bid.type == "buy" && decide (daPrice ≤ bid.price) then
        { bid := bid, executed := true, executionPrice := some daPrice,
          avgRealTimePrice := some avgRtPrice,
          profit := (avgRtPrice - daPrice) * bid.quantity,
          profitPerMWh := some ((avgRtPrice - daPrice) * bid.quantity / bid.quantity),
          reason := none, error := none }
      else if bid.type == "sell" && decide (bid.price ≤ daPrice) then
        { bid := bid, executed := true, executionPrice := some daPrice,
          avgRealTimePrice := some avgRtPrice,
          profit := (daPrice - avgRtPrice) * bid.quantity,
          profitPerMWh := some ((daPrice - avgRtPrice) * bid.quantity / bid.quantity),
          reason := none, error := none }
      else
        { bid := bid, executed := false, executionPrice := none,
          avgRealTimePrice := none, profit := 0, profitPerMWh := none,
          reason := some (if bid.type == "buy" then "Bid price below market price"
                          else "Bid price above market price"),
          error := none }
  | _, _ =>
      { bid := bid, executed := false, executionPrice := none,
        avgRealTimePrice := none, profit := 0, profitPerMWh := none,
        reason := none,
        error := some "No market data available for this hour" }

/-- One step of the `forEach` accumulation of `simulateTradeExecution`: push the
bid's result and add its profit to `totalProfit` when it executed. -/
def simStep (dayAheadPrices : List DayAheadEntry) (realTimePrices : List RealTimeEntry)
    (acc : List TradeResult × ℚ) (bid : Bid) : List TradeResult × ℚ :=
  let r := processBid dayAheadPrices realTimePrices bid
  (acc.1 ++ [r], acc.2 + (if r.executed then r.profit else 0))

/-- `simulateTradeExecution` (`trading.js` lines 8-75): run every bid through
the execution simulation and aggregate the summary. -/
def simulateTradeExecution (bids : List Bid) (dayAheadPrices : List DayAheadEntry)
    (realTimePrices : List RealTimeEntry) : SimulationResult :=
  let acc := bids.foldl (simStep dayAheadPrices realTimePrices) ([], 0)
  let results := acc.1
  let executedCount := (results.filter (fun r => r.executed)).length
  { trades := results
    totalProfit := acc.2
    summary :=
      { totalBids := bids.length
        executedTrades := executedCount
        successRate :=
          if bids.length = 0 then none
          else some (((executedCount : ℚ) / (bids.length : ℚ)) * 100)
        avgProfitPerTrade :=
          if 0 < executedCount then acc.2 / (executedCount : ℚ) else 0 } }

/-! ## Time-series reconstructor — `transformGridStatusData`
(server market-data utility module, `src/unnamed/part_018`) -/

/-- A raw GridStatus record after field-alias resolution.
`time` is `some (pacificHour, pacificMinute)` when one of the accepted timestamp
aliases (`interval_start_utc`, `interval_start_local`, `timestamp`, `datetime`,
`time`, `interval_start`) is present and parseable — the JS extracts the hour and
minute in Pacific Time via `Date`/`toLocaleString`, which the embedding abstracts
to the already-extracted values — and `none` when the alias chain yields no
string or an unparseable one.  `price` is the `parseFloat` result over the price
aliases (`lmp`, `price`, `energy_price`, `da_lmp`, `rt_lmp`, defaulting to `0`);
`none` models `NaN`. -/
structure RawRecord where
  time : Option (ℕ × ℕ)
  price : Option ℚ
deriving DecidableEq

/-- Day-ahead record validation (`transformGridStatusData` lines 64-102): a
record is kept as `(pacificHour, price)` when the timestamp parses, the price is
a number in `(0, 10000]`, and the extracted hour is in range; otherwise it is
skipped. -/
def parseDA (r : RawRecord) : Option (ℕ × ℚ) :=
  match r.time, r.price with
  | some (h, _), some p => if 0 < p ∧ p ≤ 10000 ∧ h ≤ 23 then some (h, p) else none
  | _, _ => none

/-- Real-time record validation (`transformGridStatusData` lines 192-242): like
`parseDA` but the minute is kept as well (the JS additionally range-checks it). -/
def parseRT (r : RawRecord) : Option (ℕ × ℕ × ℚ) :=
  match r.time, r.price with
  | some (h, m), some p =>
      if 0 < p ∧ p ≤ 10000 ∧ h ≤ 23 ∧ m ≤ 59 then some (h, m, p) else none
  | _, _ => none

/-- The `hourlyData` grouping of valid day-ahead prices by Pacific hour. -/
def daBucket (records : List RawRecord) (h : ℕ) : List ℚ :=
  (((records.filterMap parseDA).filter (fun x => x.1 == h)).map (·.2))

/-- The `hourlyRTData` grouping of valid real-time records by Pacific hour; each
entry keeps its 15-minute interval index `minute / 15` and price. -/
def rtBucket (records : List RawRecord) (h : ℕ) : List (ℕ × ℚ) :=
  (((records.filterMap parseRT).filter (fun x => x.1 == h)).map
    (fun x => (x.2.1 / 15, x.2.2)))

/-- Average of a list of prices, as the JS `reduce((sum, p) => sum + p, 0) / length`
idiom.  (`ℚ` division by a zero length yields `0`; every use below is on a
non-empty list.) -/
def avgOf (l : List ℚ) : ℚ := l.sum / (l.length : ℚ)

/-- Mutable state of the 24-iteration day-ahead reconstruction loop
(`transformGridStatusData` lines 115-185): the entries built so far plus the
three data-quality hour lists. -/
structure DAState where
  entries : List DayAheadEntry
  actualHours : List ℕ
  interpolatedHours : List ℕ
  fallbackHours : List ℕ
deriving DecidableEq

/-- One iteration of the day-ahead loop for a given user-timezone hour.
`hmap` models the user-hour → Pacific-hour conversion: the identity when the
target timezone is Pacific, and the JS `Date`-based offset computation
otherwise (left abstract, the claims hold for any mapping).  The JS branch
structure is mirrored exactly: actual data, two-point interpolation, one-sided
copies, or the fixed `50` fallback. -/
def daStep (bucket : ℕ → List ℚ) (hmap : ℕ → ℕ) (st : DAState) (userHour : ℕ) : DAState :=
  let pacificHour := hmap userHour
  if bucket pacificHour = [] then
    let nextBucket := bucket ((pacificHour + 1) % 24)
    match st.entries.getLast? with
    | some prevHour =>
        if nextBucket = [] then
          { st with
            entries := st.entries ++
              [⟨userHour, prevHour.price, "interpolated", 0, pacificHour⟩],
            interpolatedHours := st.interpolatedHours ++ [userHour] }
        else
          { st with
            entries := st.entries ++
              [⟨userHour, (prevHour.price + avgOf nextBucket) / 2, "interpolated", 0,
                pacificHour⟩],
            interpolatedHours := st.interpolatedHours ++ [userHour] }
    | none =>
        if nextBucket = [] then
          { st with
            entries := st.entries ++ [⟨userHour, 50, "fallback", 0, pacificHour⟩],
            fallbackHours := st.fallbackHours ++ [userHour] }
        else
          { st with
            entries := st.entries ++
              [⟨userHour, avgOf nextBucket, "interpolated", 0, pacificHour⟩],
            interpolatedHours := st.interpolatedHours ++ [userHour] }
  else
    { st with
      entries := st.entries ++
        [⟨userHour, avgOf (bucket pacificHour), "actual", (bucket pacificHour).length,
          pacificHour⟩],
      actualHours := st.actualHours ++ [userHour] }

/-- The full day-ahead loop over user hours `0..23`. -/
def buildDayAhead (bucket : ℕ → List ℚ) (hmap : ℕ → ℕ) : DAState :=
  (List.range 24).foldl (daStep bucket hmap) ⟨[], [], [], []⟩

/-- One iteration of the real-time loop (`transformGridStatusData` lines
255-348) for a given user-timezone hour.  `rand` models the
`(Math.random() - 0.5) * 5` variance added to each fallback interval price,
indexed by user hour and interval.  The JS `?.price || 50` fallback treats a
found-but-zero price as missing (JS falsiness), which the embedding mirrors. -/
def rtStep (rbucket : ℕ → List (ℕ × ℚ)) (hmap : ℕ → ℕ)
    (dayAheadPrices : List DayAheadEntry) (rand : ℕ → ℕ → ℚ)
    (st : List RealTimeEntry) (userHour : ℕ) : List RealTimeEntry :=
  let pacificHour := hmap userHour
  let hourData := rbucket pacificHour
  if hourData = [] then
    let daPrice :=
      match dayAheadPrices.find? (fun da => da.hour == userHour) with
      | some e => if e.price = 0 then 50 else e.price
      | none => 50
    let fallbackPrices := (List.range 4).map
      (fun interval => (⟨interval, daPrice + rand userHour interval, "fallback"⟩ : IntervalPrice))
    st ++ [⟨userHour, fallbackPrices, "fallback", 0, pacificHour⟩]
  else
    let intervalData := fun (i : ℕ) => (hourData.filter (fun x => x.1 == i)).map (·.2)
    let prices := (List.range 4).map (fun interval =>
      if intervalData interval = [] then
        (⟨interval, avgOf (hourData.map (·.2)), "fallback"⟩ : IntervalPrice)
      else
        (⟨interval, avgOf (intervalData interval), "actual"⟩ : IntervalPrice))
    let hasActualData := (List.range 4).any (fun i => !(intervalData i).isEmpty)
    let dataQuality :=
      if hasActualData then
        (if prices.all (fun p => p.dataQuality == "actual") then "actual" else "partial")
      else "fallback"
    st ++ [⟨userHour, prices, dataQuality, hourData.length, pacificHour⟩]

/-- The `metadata` object of the reconstruction result.  `timezone`,
`sourceTimezone` and `dataSource` are constant strings, omitted. -/
structure TransformMetadata where
  actualHours : List ℕ
  interpolatedHours : List ℕ
  fallbackHours : List ℕ
  totalRecordsDayAhead : ℕ
  totalRecordsRealTime : ℕ
deriving DecidableEq

/-- The full reconstruction result of `transformGridStatusData`. -/
structure TransformResult where
  dayAheadPrices : List DayAheadEntry
  realTimePrices : List RealTimeEntry
  metadata : TransformMetadata
deriving DecidableEq

/-- `transformGridStatusData` (lines 40-389): group the valid records by Pacific
hour, then build the two complete 24-hour arrays in the user's timezone together
with the data-quality metadata.  The function never throws. -/
def transformGridStatusData (dayAheadData realTimeData : List RawRecord)
    (hmap : ℕ → ℕ) (rand : ℕ → ℕ → ℚ) : TransformResult :=
  let daState := buildDayAhead (daBucket dayAheadData) hmap
  let realTimePrices :=
    (List.range 24).foldl (rtStep (rtBucket realTimeData) hmap daState.entries rand) []
  { dayAheadPrices := daState.entries
    realTimePrices := realTimePrices
    metadata :=
      { actualHours := daState.actualHours
        interpolatedHours := daState.interpolatedHours
        fallbackHours := daState.fallbackHours
        totalRecordsDayAhead := dayAheadData.length
        totalRecordsRealTime := realTimeData.length } }

/-- The reconstruction entry point as exercised by the server: the
`getMarketPrices` emptiness check (`src/server/services/gridstatus.js` lines
344-346, `if (dayAheadData.length === 0 && realTimeData.length === 0) throw`)
followed by `transformGridStatusData`.  The thrown `ApiError` is modelled as
`Except.error`. -/
def reconstructMarketData (dayAheadData realTimeData : List RawRecord)
    (hmap : ℕ → ℕ) (rand : ℕ → ℕ → ℚ) : Except String TransformResult :=
  if dayAheadData.length = 0 ∧ realTimeData.length = 0 then
    Except.error "No market data available for this date"
  else
    Except.ok (transformGridStatusData dayAheadData realTimeData hmap rand)

/-! ## Spike analyzer — `src/server/services/spikeAnalyzer.js` -/

/-- Detection thresholds (`DEFAULT_THRESHOLDS` plus caller overrides). -/
structure Thresholds where
  minMagnitude : ℚ
  minDuration : ℚ
  spatialRadius : ℚ
  zScoreThreshold : ℚ
deriving DecidableEq

/-- The `DEFAULT_THRESHOLDS` constant (`spikeAnalyzer.js` lines 8-13). -/
def DEFAULT_THRESHOLDS : Thresholds :=
  { minMagnitude := 5, minDuration := 15, spatialRadius := 50, zScoreThreshold := 1.5 }

/-- The `SEVERITY_THRESHOLDS` constant (`spikeAnalyzer.js` lines 15-20). -/
structure SeverityThresholds where
  critical : ℚ
  high : ℚ
  medium : ℚ
  low : ℚ
deriving DecidableEq

def SEVERITY_THRESHOLDS : SeverityThresholds :=
  { critical := 50, high := 25, medium := 10, low := 0 }

/-- The `WINDOW_SIZE` constant: a 30-minute window of six 5-minute samples. -/
def WINDOW_SIZE : ℕ := 6

/-- One point of a location's chronological price series.  The JS timestamp
string is abstracted to epoch milliseconds (the code only ever feeds it to
`new Date(...).getTime()` and `getHours()`). -/
structure PricePoint where
  timestamp : ℤ
  price : ℚ
deriving DecidableEq

/-- A per-location price series, the element type of `detectSpikes`' input. -/
structure LocationPriceData where
  location : String
  prices : List PricePoint
deriving DecidableEq

/-- A detected spike (`createSpikeObject`, lines 158-172).  Omitted JS fields:
`id` (built from `Date.now()`), `nearbyLocations` (spatial context),
`confidence` and `zScore` (both involve the irrational `√variance`); no claim
depends on them.  `timestamp` is in epoch milliseconds. -/
structure Spike where
  timestamp : ℤ
  location : String
  price : ℚ
  baselinePrice : ℚ
  magnitude : ℚ
  type : String
  severity : String
deriving DecidableEq

/-- `calculateSeverity` (lines 177-182): strict threshold comparisons from
`SEVERITY_THRESHOLDS`. -/
def calculateSeverity (magnitude : ℚ) : String :=
  if SEVERITY_THRESHOLDS.critical < magnitude then "critical"
  else if SEVERITY_THRESHOLDS.high < magnitude then "high"
  else if SEVERITY_THRESHOLDS.medium < magnitude then "medium"
  else "low"

/-- Population mean of a window, from `calculateStatistics` (lines 136-142). -/
def meanOf (window : List ℚ) : ℚ := window.sum / (window.length : ℚ)

/-- Population variance of a window, from `calculateStatistics` (lines
136-142).  The JS also returns `stdDev = Math.sqrt(variance)`; since `√` is
irrational the embedding carries the variance and performs the standard
deviation comparisons in square-free form (see `zScoreExceeds`). -/
def varianceOf (window : List ℚ) : ℚ :=
  (window.map (fun p => (p - meanOf window) ^ 2)).sum / (window.length : ℚ)

/-- Exact encoding of the JS test `zScore > zScoreThreshold` where
`zScore = stdDev > 0 ? |diff| / stdDev : 0` and `stdDev = √variance`
(`detectSpikeAtIndex` line 112): for positive variance,
`|diff| / √v > t` holds iff `t < 0` or `t² · v < diff²`; for zero variance the
zScore is `0`.  `zScoreExceeds_iff_sqrt` below proves this encoding equivalent
to the real-valued formula. -/
def zScoreExceeds (diff variance zThreshold : ℚ) : Bool :=
  if 0 < variance then
    decide (zThreshold < 0) || decide (zThreshold ^ 2 * variance < diff ^ 2)
  else
    decide (zThreshold < 0)

/-- `isSpikeDetected` (lines 147-153): high z-score with significant magnitude,
or raw magnitude above twice the minimum. -/
def isSpikeDetectedQ (diff variance : ℚ) (config : Thresholds) : Bool :=
  let magnitude := |diff|
  (zScoreExceeds diff variance config.zScoreThreshold
      && decide (config.minMagnitude < magnitude))
    || decide (config.minMagnitude * 2 < magnitude)

/-- `createSpikeObject` (lines 158-172), restricted to the retained fields. -/
def createSpikeObject (pricePoint : PricePoint) (location : String)
    (mean magnitude : ℚ) : Spike :=
  { timestamp := pricePoint.timestamp
    location := location
    price := pricePoint.price
    baselinePrice := mean
    magnitude := magnitude
    type := if mean < pricePoint.price then "positive" else "negative"
    severity := calculateSeverity magnitude }

/-- `detectSpikeAtIndex` (lines 107-131): statistics over the window
`prices.slice(i - WINDOW_SIZE, i)`, then the trigger test. -/
def detectSpikeAtIndex (prices : List PricePoint) (i : ℕ) (location : String)
    (config : Thresholds) : Option Spike :=
  let window := ((prices.drop (i - WINDOW_SIZE)).take WINDOW_SIZE).map (·.price)
  let mean := meanOf window
  let variance := varianceOf window
  match prices[i]? with
  | none => none
  | some pricePoint =>
      let diff := pricePoint.price - mean
      if isSpikeDetectedQ diff variance config then
        some (createSpikeObject pricePoint location mean |diff|)
      else none

/-- `analyzeLocationSpikes` (lines 84-102): scan indices
`WINDOW_SIZE ≤ i < prices.length` and collect the triggered spikes. -/
def analyzeLocationSpikes (locationData : LocationPriceData) (config : Thresholds) :
    List Spike :=
  (List.range' WINDOW_SIZE (locationData.prices.length - WINDOW_SIZE)).filterMap
    (fun i => detectSpikeAtIndex locationData.prices i locationData.location config)

/-- `areSpikesDuplicate` (lines 231-234): same location and timestamps closer
than the 15-minute threshold (milliseconds). -/
def areSpikesDuplicate (spike1 spike2 : Spike) : Bool :=
  spike1.location == spike2.location
    && decide (|spike1.timestamp - spike2.timestamp| < 15 * 60 * 1000)

/-- The `forEach` pass of `filterDuplicateSpikes` (lines 215-223): keep a spike
only when no already-kept spike duplicates it. -/
def dedupAux (filtered : List Spike) : List Spike → List Spike
  | [] => filtered
  | spike :: rest =>
      if filtered.any (fun existing => areSpikesDuplicate existing spike) then
        dedupAux filtered rest
      else
        dedupAux (filtered ++ [spike]) rest

/-- Insertion step of the final `sort((a, b) => b.magnitude - a.magnitude)`,
a stable descending-by-magnitude sort. -/
def insertDesc (s : Spike) : List Spike → List Spike
  | [] => [s]
  | t :: ts => if t.magnitude < s.magnitude then s :: t :: ts else t :: insertDesc s ts

/-- Stable insertion sort realising the JS descending-by-magnitude sort. -/
def sortDescMagnitude (l : List Spike) : List Spike := l.foldr insertDesc []

/-- `filterDuplicateSpikes` (lines 211-226). -/
def filterDuplicateSpikes (spikes : List Spike) : List Spike :=
  sortDescMagnitude (dedupAux [] spikes)

/-- `detectSpikes` (lines 48-70) together with its validation: the JS throws
`ApiError` for an empty input list (`validatePriceData`) and for any location
with an empty price series (`analyzeLocationSpikes` line 88); both are modelled
as `Except.error`. -/
def detectSpikes (priceData : List LocationPriceData) (config : Thresholds) :
    Except String (List Spike) :=
  if priceData.isEmpty then
    Except.error "Price data is required for spike detection"
  else if priceData.any (fun ld => ld.prices.isEmpty) then
    Except.error "No price data available for location"
  else
    Except.ok (filterDuplicateSpikes
      (priceData.flatMap (fun ld => analyzeLocationSpikes ld config)))

/-- A synthesized grid event (`createEventsFromTimeGroups` lines 277-298).
The JS `id` (uses `Date.now()`) and the `timestamp`/`description` strings are
abstracted: `hour` keeps the hour bucket the timestamp string encodes. -/
structure GridEvent where
  hour : ℕ
  type : String
  affectedLocations : List String
  estimatedImpact : ℚ
  severity : String
  confidence : ℚ
deriving DecidableEq

/-- `calculateAverageMagnitude` (lines 303-305). -/
def calculateAverageMagnitude (spikes : List Spike) : ℚ :=
  (spikes.map (·.magnitude)).sum / (spikes.length : ℚ)

/-- `getEventSeverity` (lines 310-314). -/
def getEventSeverity (avgMagnitude : ℚ) : String :=
  if 150 < avgMagnitude then "high"
  else if 75 < avgMagnitude then "medium"
  else "low"

/-- `calculateEventConfidence` (lines 334-345): base `0.5`, plus the spike
count bonus capped at `0.3`, plus the magnitude bonus capped at `0.2`, the
total capped at `0.95`. -/
def calculateEventConfidence (spikes : List Spike) : ℚ :=
  let confidence : ℚ := 0.5 + min ((spikes.length : ℚ) * 0.1) 0.3
  let confidence := confidence + min (calculateAverageMagnitude spikes / 200) 0.2
  min confidence 0.95

/-- `groupSpikesByTime` (lines 260-272) groups by `new Date(t).getHours()`;
the hour-of-day extraction from epoch milliseconds is modelled in UTC.  The
`Map` is modelled as an association list in first-appearance order. -/
def hourOfTimestamp (t : ℤ) : ℕ := (t / 3600000).toNat % 24

def groupSpikesByTime (spikes : List Spike) : List (ℕ × List Spike) :=
  spikes.foldl
    (fun groups spike =>
      let hour := hourOfTimestamp spike.timestamp
      if groups.any (fun g => g.1 == hour) then
        groups.map (fun g => if g.1 == hour then (g.1, g.2 ++ [spike]) else g)
      else
        groups ++ [(hour, [spike])])
    []

/-- `createEventsFromTimeGroups` (lines 277-298): every hour group with at
least two spikes yields one event. -/
def createEventsFromTimeGroups (timeGroups : List (ℕ × List Spike)) : List GridEvent :=
  timeGroups.filterMap (fun g =>
    if 2 ≤ g.2.length then
      let avgMagnitude := calculateAverageMagnitude g.2
      some
        { hour := g.1
          type := if 100 < avgMagnitude then "transmission_outage" else "congestion"
          affectedLocations := g.2.map (·.location)
          estimatedImpact := avgMagnitude
          severity := getEventSeverity avgMagnitude
          confidence := calculateEventConfidence g.2 }
    else none)

/-- `generateGridEvents` (lines 239-255): empty input short-circuits to `[]`,
otherwise group by hour and synthesize. -/
def generateGridEvents (spikes : List Spike) : List GridEvent :=
  if spikes.isEmpty then []
  else createEventsFromTimeGroups (groupSpikesByTime spikes)

/-! ## Concrete fixtures used by witnesses and counterexamples -/

/-- A buy bid at hour 5 priced exactly at the clearing price. -/
def wBid : Bid := ⟨"b1", 5, "buy", 50, 10⟩

/-- A day-ahead entry for hour 5 with clearing price 50. -/
def wDA : DayAheadEntry := ⟨5, 50, "actual", 1, 5⟩

/-- A real-time entry for hour 5 averaging 60. -/
def wRT : RealTimeEntry :=
  ⟨5, [⟨0, 60, "actual"⟩, ⟨1, 60, "actual"⟩, ⟨2, 60, "actual"⟩, ⟨3, 60, "actual"⟩],
    "actual", 4, 5⟩

/-- A buy bid at hour 0 priced well above the clearing price (it executes). -/
def bidBuy100 : Bid := ⟨"b2", 0, "buy", 100, 1⟩

/-- A day-ahead entry for hour 0 with clearing price 50. -/
def daHour0 : DayAheadEntry := ⟨0, 50, "actual", 1, 0⟩

/-- A real-time entry for hour 0 averaging 60. -/
def rtHour0 : RealTimeEntry :=
  ⟨0, [⟨0, 60, "actual"⟩, ⟨1, 60, "actual"⟩, ⟨2, 60, "actual"⟩, ⟨3, 60, "actual"⟩],
    "actual", 4, 0⟩

/-- A bid referencing hour 17, for which the fixtures below have no data. -/
def bidHour17 : Bid := ⟨"b17", 17, "buy", 40, 2⟩

/-- A day-ahead entry for hour 12 only. -/
def daHour12 : DayAheadEntry := ⟨12, 45, "actual", 1, 12⟩

/-- A real-time entry for hour 12 only. -/
def rtHour12 : RealTimeEntry :=
  ⟨12, [⟨0, 44, "actual"⟩, ⟨1, 46, "actual"⟩, ⟨2, 45, "actual"⟩, ⟨3, 45, "actual"⟩],
    "actual", 4, 12⟩

/-- A raw record whose resolved price `0` is outside `(0, 10000]`: malformed,
skipped by parsing. -/
def badRecord : RawRecord := ⟨some (0, 0), some 0⟩

/-- A low-magnitude spike at epoch `0` for location `LOC_A`. -/
def spikeLow : Spike := ⟨0, "LOC_A", 15, 10, 5, "positive", "low"⟩

/-- A higher-magnitude spike 10 minutes later for the same location. -/
def spikeHigh : Spike := ⟨600000, "LOC_A", 30, 10, 20, "positive", "medium"⟩

/-- A high-magnitude spike at epoch `0` for location `LOC_B`. -/
def spikeBigB : Spike := ⟨0, "LOC_B", 40, 10, 30, "positive", "high"⟩

/-- A spike 5 minutes later for `LOC_B` with smaller magnitude. -/
def spikeSmallB : Spike := ⟨300000, "LOC_B", 18, 10, 8, "positive", "low"⟩

/-- A spike of magnitude 10 at hour 9 (epoch milliseconds), used in groups. -/
def spikeMag10 : Spike := ⟨32400000, "LOC_C", 20, 10, 10, "positive", "low"⟩

/-- A constant-price series of seven 5-minute samples. -/
def constSeries : List PricePoint :=
  [⟨0, 20⟩, ⟨300000, 20⟩, ⟨600000, 20⟩, ⟨900000, 20⟩, ⟨1200000, 20⟩,
   ⟨1500000, 20⟩, ⟨1800000, 20⟩]

/-- A series that is flat at 10 and jumps to 100 at the seventh sample. -/
def jumpSeries : List PricePoint :=
  [⟨0, 10⟩, ⟨300000, 10⟩, ⟨600000, 10⟩, ⟨900000, 10⟩, ⟨1200000, 10⟩,
   ⟨1500000, 10⟩, ⟨1800000, 100⟩]

/-! ## Helper lemmas (shared) -/

/-- The `forEach` accumulation of `simulateTradeExecution` produces the mapped
results in order. -/
theorem simFold_trades (da : List DayAheadEntry) (rt : List RealTimeEntry) :
    ∀ (bids : List Bid) (acc : List TradeResult × ℚ),
      (bids.foldl (simStep da rt) acc).1 = acc.1 ++ bids.map (processBid da rt) := by
  intro bids
  induction bids with
  | nil => intro acc; simp
  | cons b bs ih =>
      intro acc
      simp only [List.foldl_cons, List.map_cons]
      rw [ih (simStep da rt acc b)]
      simp [simStep]

/-- The `forEach` accumulation of `simulateTradeExecution` adds up exactly the
profits of the executed results. -/
theorem simFold_profit (da : List DayAheadEntry) (rt : List RealTimeEntry) :
    ∀ (bids : List Bid) (acc : List TradeResult × ℚ),
      (bids.foldl (simStep da rt) acc).2 =
        acc.2 + (((bids.map (processBid da rt)).filter (fun t => t.executed)).map
          (·.profit)).sum := by
  intro bids
  induction bids with
  | nil => intro acc; simp
  | cons b bs ih =>
      intro acc
      simp only [List.foldl_cons, List.map_cons]
      rw [ih (simStep da rt acc b)]
      simp only [simStep, List.filter_cons]
      by_cases hex : (processBid da rt b).executed = true
      · simp [hex]; ring
      · simp [hex]

/-- `simulateTradeExecution` returns one result per input bid, in order. -/
theorem simulateTradeExecution_trades (bids : List Bid) (da : List DayAheadEntry)
    (rt : List RealTimeEntry) :
    (simulateTradeExecution bids da rt).trades = bids.map (processBid da rt) := by
  simp [simulateTradeExecution, simFold_trades]

/-- `totalProfit` equals the sum of profits over executed trades. -/
theorem simulateTradeExecution_totalProfit (bids : List Bid) (da : List DayAheadEntry)
    (rt : List RealTimeEntry) :
    (simulateTradeExecution bids da rt).totalProfit =
      (((simulateTradeExecution bids da rt).trades.filter (fun t => t.executed)).map
        (·.profit)).sum := by
  simp [simulateTradeExecution, simFold_profit, simFold_trades]

/-- Each day-ahead loop iteration appends exactly one entry carrying the
iteration's user hour, and files that hour into exactly one of the three
data-quality lists. -/
theorem daStep_hour_track (bucket : ℕ → List ℚ) (hmap : ℕ → ℕ) (st : DAState) (h : ℕ) :
    (daStep bucket hmap st h).entries.map (fun e => e.hour) =
      st.entries.map (fun e => e.hour) ++ [h] ∧
    ((daStep bucket hmap st h).actualHours : Multiset ℕ) +
        ((daStep bucket hmap st h).interpolatedHours : Multiset ℕ) +
        ((daStep bucket hmap st h).fallbackHours : Multiset ℕ) =
      ((st.actualHours : Multiset ℕ) + (st.interpolatedHours : Multiset ℕ) +
        (st.fallbackHours : Multiset ℕ)) + (([h] : List ℕ) : Multiset ℕ) := by
  rcases hl : st.entries.getLast? with _ | prev <;>
    by_cases hb : bucket (hmap h) = [] <;>
      by_cases hnb : bucket ((hmap h + 1) % 24) = [] <;>
        (constructor
         · simp [daStep, hl, hb, hnb]
         · simp only [daStep, hl, hb, hnb, if_true, if_false, ite_true, ite_false,
             eq_self_iff_true, not_false_iff]
           simp only [← Multiset.coe_add]
           abel)

/-- Folding the day-ahead loop over a list of hours appends those hours to the
entry list in order and distributes them over the three data-quality lists. -/
theorem daFold_invariant (bucket : ℕ → List ℚ) (hmap : ℕ → ℕ) :
    ∀ (hs : List ℕ) (st : DAState),
      ((hs.foldl (daStep bucket hmap) st).entries.map (fun e => e.hour) =
        st.entries.map (fun e => e.hour) ++ hs) ∧
      (((hs.foldl (daStep bucket hmap) st).actualHours : Multiset ℕ) +
          ((hs.foldl (daStep bucket hmap) st).interpolatedHours : Multiset ℕ) +
          ((hs.foldl (daStep bucket hmap) st).fallbackHours : Multiset ℕ) =
        ((st.actualHours : Multiset ℕ) + (st.interpolatedHours : Multiset ℕ) +
          (st.fallbackHours : Multiset ℕ)) + (hs : Multiset ℕ)) := by
  intro hs
  induction hs with
  | nil => intro st; simp
  | cons h t ih =>
      intro st
      simp only [List.foldl_cons]
      obtain ⟨e1, e2⟩ := ih (daStep bucket hmap st h)
      obtain ⟨s1, s2⟩ := daStep_hour_track bucket hmap st h
      constructor
      · rw [e1, s1]; simp
      · rw [e2, s2]
        have : ((([h] : List ℕ) : Multiset ℕ) + (t : Multiset ℕ)) =
            ((h :: t : List ℕ) : Multiset ℕ) := by
          rw [Multiset.coe_add]; rfl
        rw [add_assoc, this]

/-- Each real-time loop iteration appends exactly one entry carrying the
iteration's user hour. -/
theorem rtStep_hour (rbucket : ℕ → List (ℕ × ℚ)) (hmap : ℕ → ℕ)
    (dayAheadPrices : List DayAheadEntry) (rand : ℕ → ℕ → ℚ)
    (st : List RealTimeEntry) (h : ℕ) :
    (rtStep rbucket hmap dayAheadPrices rand st h).map (fun e => e.hour) =
      st.map (fun e => e.hour) ++ [h] := by
  by_cases hb : rbucket (hmap h) = [] <;> simp [rtStep, hb]

/-- Folding the real-time loop over a list of hours appends those hours in
order. -/
theorem rtFold_hours (rbucket : ℕ → List (ℕ × ℚ)) (hmap : ℕ → ℕ)
    (dayAheadPrices : List DayAheadEntry) (rand : ℕ → ℕ → ℚ) :
    ∀ (hs : List ℕ) (st : List RealTimeEntry),
      (hs.foldl (rtStep rbucket hmap dayAheadPrices rand) st).map (fun e => e.hour) =
        st.map (fun e => e.hour) ++ hs := by
  intro hs
  induction hs with
  | nil => intro st; simp
  | cons h t ih =>
      intro st
      simp only [List.foldl_cons]
      rw [ih (rtStep rbucket hmap dayAheadPrices rand st h), rtStep_hour]
      simp

/-- Duplicate detection is symmetric: same location and a symmetric time gap. -/
theorem areSpikesDuplicate_comm (a b : Spike) :
    areSpikesDuplicate a b = areSpikesDuplicate b a := by
  have h1 : (a.location == b.location) = (b.location == a.location) := by
    by_cases h : a.location = b.location
    · simp [h]
    · have h' : ¬b.location = a.location := fun hh => h hh.symm
      simp [beq_eq_false_iff_ne, h, h']
  simp only [areSpikesDuplicate, h1, abs_sub_comm]

/-- The dedup pass preserves and establishes pairwise non-duplication. -/
theorem dedupAux_pairwise :
    ∀ (rest acc : List Spike),
      acc.Pairwise (fun a b => areSpikesDuplicate a b = false) →
      (dedupAux acc rest).Pairwise (fun a b => areSpikesDuplicate a b = false) := by
  intro rest
  induction rest with
  | nil => intro acc h; exact h
  | cons s ss ih =>
      intro acc hacc
      unfold dedupAux
      by_cases hany : acc.any (fun e => areSpikesDuplicate e s) = true
      · rw [if_pos hany]
        exact ih acc hacc
      · rw [if_neg hany]
        apply ih
        rw [List.pairwise_append]
        refine ⟨hacc, List.pairwise_singleton _ _, ?_⟩
        intro a ha b hb
        rw [List.mem_singleton] at hb
        subst hb
        have h : ∀ e ∈ acc, ¬areSpikesDuplicate e b = true := by
          intro e he hcontra
          exact hany (List.any_eq_true.mpr ⟨e, he, hcontra⟩)
        simpa using h a ha

/-- Membership through the insertion step of the sort. -/
theorem mem_insertDesc (s a : Spike) :
    ∀ (l : List Spike), a ∈ insertDesc s l ↔ a = s ∨ a ∈ l := by
  intro l
  induction l with
  | nil => simp [insertDesc]
  | cons t ts ih =>
      simp only [insertDesc]
      split
      · simp [List.mem_cons]
      · simp only [List.mem_cons, ih]
        tauto

/-- The insertion step is a permutation. -/
theorem insertDesc_perm (s : Spike) :
    ∀ (l : List Spike), (insertDesc s l).Perm (s :: l) := by
  intro l
  induction l with
  | nil => exact List.Perm.refl _
  | cons t ts ih =>
      simp only [insertDesc]
      split
      · exact List.Perm.refl _
      · exact (List.Perm.cons t ih).trans (List.Perm.swap s t ts)

/-- The final sort is a permutation of its input. -/
theorem sortDescMagnitude_perm (l : List Spike) : (sortDescMagnitude l).Perm l := by
  induction l with
  | nil => exact List.Perm.refl _
  | cons s ss ih =>
      simp only [sortDescMagnitude, List.foldr_cons]
      exact (insertDesc_perm s _).trans (List.Perm.cons s ih)

/-- Inserting into a descending-by-magnitude list keeps it descending. -/
theorem insertDesc_sorted (s : Spike) :
    ∀ (l : List Spike),
      l.Sorted (fun a b => b.magnitude ≤ a.magnitude) →
      (insertDesc s l).Sorted (fun a b => b.magnitude ≤ a.magnitude) := by
  intro l
  induction l with
  | nil => intro _; simp [insertDesc]
  | cons t ts ih =>
      intro h
      rw [List.sorted_cons] at h
      obtain ⟨ht, hts⟩ := h
      simp only [insertDesc]
      split
      case isTrue hlt =>
        rw [List.sorted_cons]
        refine ⟨?_, List.sorted_cons.mpr ⟨ht, hts⟩⟩
        intro b hb
        rcases List.mem_cons.mp hb with rfl | hb'
        · exact le_of_lt hlt
        · exact le_trans (ht b hb') (le_of_lt hlt)
      case isFalse hge =>
        rw [List.sorted_cons]
        constructor
        · intro b hb
          rcases (mem_insertDesc s b ts).mp hb with rfl | hb'
          · exact not_lt.mp hge
          · exact ht b hb'
        · exact ih hts

/-- The final sort produces a descending-by-magnitude list. -/
theorem sortDescMagnitude_sorted (l : List Spike) :
    (sortDescMagnitude l).Sorted (fun a b => b.magnitude ≤ a.magnitude) := by
  induction l with
  | nil => simp [sortDescMagnitude]
  | cons s ss ih =>
      simp only [sortDescMagnitude, List.foldr_cons]
      exact insertDesc_sorted s _ ih

/-! ## Claim theorems -/

/-- C2: for every pair of raw input arrays (malformed records included) and any
hour mapping and variance oracle, the reconstruction yields exactly 24
day-ahead and 24 real-time entries whose hour fields are exactly `0..23` in
order, and the metadata hour sets are pairwise disjoint with union `{0..23}`. -/
theorem C2_reconstruction_invariants :
    ∀ (da rt : List RawRecord) (hmap : ℕ → ℕ) (rand : ℕ → ℕ → ℚ),
      (transformGridStatusData da rt hmap rand).dayAheadPrices.length = 24 ∧
      (transformGridStatusData da rt hmap rand).realTimePrices.length = 24 ∧
      (transformGridStatusData da rt hmap rand).dayAheadPrices.map (fun e => e.hour) =
        List.range 24 ∧
      (transformGridStatusData da rt hmap rand).realTimePrices.map (fun e => e.hour) =
        List.range 24 ∧
      (transformGridStatusData da rt hmap rand).metadata.actualHours.Nodup ∧
      (transformGridStatusData da rt hmap rand).metadata.interpolatedHours.Nodup ∧
      (transformGridStatusData da rt hmap rand).metadata.fallbackHours.Nodup ∧
      (∀ h, h ∈ (transformGridStatusData da rt hmap rand).metadata.actualHours →
        h ∉ (transformGridStatusData da rt hmap rand).metadata.interpolatedHours) ∧
      (∀ h, h ∈ (transformGridStatusData da rt hmap rand).metadata.actualHours →
        h ∉ (transformGridStatusData da rt hmap rand).metadata.fallbackHours) ∧
      (∀ h, h ∈ (transformGridStatusData da rt hmap rand).metadata.interpolatedHours →
        h ∉ (transformGridStatusData da rt hmap rand).metadata.fallbackHours) ∧
      (∀ h, (h ∈ (transformGridStatusData da rt hmap rand).metadata.actualHours ∨
             h ∈ (transformGridStatusData da rt hmap rand).metadata.interpolatedHours ∨
             h ∈ (transformGridStatusData da rt hmap rand).metadata.fallbackHours) ↔
            h < 24) := by
  intro da rt hmap rand
  obtain ⟨hent, hms⟩ :=
    daFold_invariant (daBucket da) hmap (List.range 24) ⟨[], [], [], []⟩
  have hrt := rtFold_hours (rtBucket rt) hmap
    (buildDayAhead (daBucket da) hmap).entries rand (List.range 24) []
  simp only [List.map_nil, List.nil_append] at hent hrt
  have hda24 : (transformGridStatusData da rt hmap rand).dayAheadPrices.map
      (fun e => e.hour) = List.range 24 := hent
  have hrt24 : (transformGridStatusData da rt hmap rand).realTimePrices.map
      (fun e => e.hour) = List.range 24 := hrt
  -- abbreviations for the three metadata hour lists
  have hmulti :
      ((transformGridStatusData da rt hmap rand).metadata.actualHours : Multiset ℕ) +
        ((transformGridStatusData da rt hmap rand).metadata.interpolatedHours : Multiset ℕ) +
        ((transformGridStatusData da rt hmap rand).metadata.fallbackHours : Multiset ℕ) =
        ((List.range 24 : List ℕ) : Multiset ℕ) := by
    simpa using hms
  have hnd : Multiset.Nodup
      (((transformGridStatusData da rt hmap rand).metadata.actualHours : Multiset ℕ) +
        ((transformGridStatusData da rt hmap rand).metadata.interpolatedHours : Multiset ℕ) +
        ((transformGridStatusData da rt hmap rand).metadata.fallbackHours : Multiset ℕ)) := by
    rw [hmulti]
    exact Multiset.coe_nodup.mpr (List.nodup_range 24)
  obtain ⟨hndAI, hndF, hdFpair⟩ := Multiset.nodup_add.mp hnd
  obtain ⟨hndA, hndI, hdAI⟩ := Multiset.nodup_add.mp hndAI
  refine ⟨?_, ?_, hda24, hrt24, Multiset.coe_nodup.mp hndA, Multiset.coe_nodup.mp hndI,
    Multiset.coe_nodup.mp hndF, ?_, ?_, ?_, ?_⟩
  · have := congrArg List.length hda24
    simpa using this
  · have := congrArg List.length hrt24
    simpa using this
  · intro h ha hi
    exact Multiset.disjoint_left.mp hdAI (Multiset.mem_coe.mpr ha)
      (Multiset.mem_coe.mpr hi)
  · intro h ha hf
    exact Multiset.disjoint_left.mp hdFpair
      (Multiset.mem_add.mpr (Or.inl (Multiset.mem_coe.mpr ha)))
      (Multiset.mem_coe.mpr hf)
  · intro h hi hf
    exact Multiset.disjoint_left.mp hdFpair
      (Multiset.mem_add.mpr (Or.inr (Multiset.mem_coe.mpr hi)))
      (Multiset.mem_coe.mpr hf)
  · intro h
    have hmem : h ∈
        (((transformGridStatusData da rt hmap rand).metadata.actualHours : Multiset ℕ) +
          ((transformGridStatusData da rt hmap rand).metadata.interpolatedHours : Multiset ℕ) +
          ((transformGridStatusData da rt hmap rand).metadata.fallbackHours : Multiset ℕ)) ↔
        h < 24 := by
      rw [hmulti, Multiset.mem_coe, List.mem_range]
    rw [← hmem, Multiset.mem_add, Multiset.mem_add]
    simp [Multiset.mem_coe, or_assoc]

/-- C3 counterexample: with one malformed day-ahead record (price `0`) and an
empty real-time list, both inputs are empty *after parsing*, yet the
reconstruction does not throw — `getMarketPrices`' emptiness check looks at the
raw list lengths before parsing. -/
theorem C3_counterexample :
    [badRecord].filterMap parseDA = ([] : List (ℕ × ℚ)) ∧
    ([] : List RawRecord).filterMap parseRT = ([] : List (ℕ × ℕ × ℚ)) ∧
    reconstructMarketData [badRecord] [] (fun h => h) (fun _ _ => 0) =
      Except.ok (transformGridStatusData [badRecord] [] (fun h => h) (fun _ _ => 0)) := by
  refine ⟨?_, rfl, ?_⟩
  · simp [parseDA, badRecord]
  · rfl

/-- C3 amended: the pipeline raises its data-unavailable error exactly when
both raw input lists are empty *as given* (length zero, before parsing), and an
individual malformed record is skipped: it changes neither the reconstructed
series nor the quality metadata, and never aborts the call. -/
theorem C3_amended_emptiness_check :
    (∀ (da rt : List RawRecord) (hmap : ℕ → ℕ) (rand : ℕ → ℕ → ℚ),
      (∃ e, reconstructMarketData da rt hmap rand = Except.error e) ↔
        (da = [] ∧ rt = [])) ∧
    (∀ (da rt : List RawRecord) (hmap : ℕ → ℕ) (rand : ℕ → ℕ → ℚ) (r : RawRecord),
      parseDA r = none →
      (transformGridStatusData (r :: da) rt hmap rand).dayAheadPrices =
        (transformGridStatusData da rt hmap rand).dayAheadPrices ∧
      (transformGridStatusData (r :: da) rt hmap rand).realTimePrices =
        (transformGridStatusData da rt hmap rand).realTimePrices ∧
      (transformGridStatusData (r :: da) rt hmap rand).metadata.actualHours =
        (transformGridStatusData da rt hmap rand).metadata.actualHours ∧
      (transformGridStatusData (r :: da) rt hmap rand).metadata.interpolatedHours =
        (transformGridStatusData da rt hmap rand).metadata.interpolatedHours ∧
      (transformGridStatusData (r :: da) rt hmap rand).metadata.fallbackHours =
        (transformGridStatusData da rt hmap rand).metadata.fallbackHours) ∧
    (∀ (da rt : List RawRecord) (hmap : ℕ → ℕ) (rand : ℕ → ℕ → ℚ) (r : RawRecord),
      parseRT r = none →
      (transformGridStatusData da (r :: rt) hmap rand).dayAheadPrices =
        (transformGridStatusData da rt hmap rand).dayAheadPrices ∧
      (transformGridStatusData da (r :: rt) hmap rand).realTimePrices =
        (transformGridStatusData da rt hmap rand).realTimePrices ∧
      (transformGridStatusData da (r :: rt) hmap rand).metadata.actualHours =
        (transformGridStatusData da rt hmap rand).metadata.actualHours ∧
      (transformGridStatusData da (r :: rt) hmap rand).metadata.interpolatedHours =
        (transformGridStatusData da rt hmap rand).metadata.interpolatedHours ∧
      (transformGridStatusData da (r :: rt) hmap rand).metadata.fallbackHours =
        (transformGridStatusData da rt hmap rand).metadata.fallbackHours) := by
  refine ⟨?_, ?_, ?_⟩
  · intro da rt hmap rand
    by_cases hc : da.length = 0 ∧ rt.length = 0
    · simp only [reconstructMarketData]
      rw [if_pos hc]
      constructor
      · intro _
        exact ⟨List.length_eq_zero.mp hc.1, List.length_eq_zero.mp hc.2⟩
      · intro _
        exact ⟨_, rfl⟩
    · simp only [reconstructMarketData]
      rw [if_neg hc]
      constructor
      · rintro ⟨e, he⟩
        cases he
      · rintro ⟨h1, h2⟩
        exact absurd ⟨by simp [h1], by simp [h2]⟩ hc
  · intro da rt hmap rand r hr
    have hbucket : daBucket (r :: da) = daBucket da := by
      funext h
      simp [daBucket, List.filterMap_cons, hr]
    refine ⟨?_, ?_, ?_, ?_, ?_⟩ <;>
      simp [transformGridStatusData, hbucket]
  · intro da rt hmap rand r hr
    have hbucket : rtBucket (r :: rt) = rtBucket rt := by
      funext h
      simp [rtBucket, List.filterMap_cons, hr]
    refine ⟨?_, ?_, ?_, ?_, ?_⟩ <;>
      simp [transformGridStatusData, hbucket]

/-- C3 amended witness: skipping the malformed record evaluated concretely,
and the emptiness rule evaluated on a non-empty raw list. -/
theorem C3_amended_witness :
    parseDA badRecord = none ∧
    ((transformGridStatusData (badRecord :: []) [] (fun h => h) (fun _ _ => 0)).dayAheadPrices =
      (transformGridStatusData [] [] (fun h => h) (fun _ _ => 0)).dayAheadPrices ∧
     (transformGridStatusData (badRecord :: []) [] (fun h => h) (fun _ _ => 0)).realTimePrices =
      (transformGridStatusData [] [] (fun h => h) (fun _ _ => 0)).realTimePrices ∧
     (transformGridStatusData (badRecord :: []) [] (fun h => h) (fun _ _ => 0)).metadata.actualHours =
      (transformGridStatusData [] [] (fun h => h) (fun _ _ => 0)).metadata.actualHours ∧
     (transformGridStatusData (badRecord :: []) [] (fun h => h) (fun _ _ => 0)).metadata.interpolatedHours =
      (transformGridStatusData [] [] (fun h => h) (fun _ _ => 0)).metadata.interpolatedHours ∧
     (transformGridStatusData (badRecord :: []) [] (fun h => h) (fun _ _ => 0)).metadata.fallbackHours =
      (transformGridStatusData [] [] (fun h => h) (fun _ _ => 0)).metadata.fallbackHours) :=
  ⟨by simp [parseDA, badRecord],
   C3_amended_emptiness_check.2.1 [] [] (fun h => h) (fun _ _ => 0) badRecord
     (by simp [parseDA, badRecord])⟩

/-- C1: for a bid whose hour has both a day-ahead and a real-time entry, a buy
executes iff `bid.price ≥ clearingPrice` and a sell iff `bid.price ≤
clearingPrice` (both inclusive), the execution price is the clearing price, and
the profit is `(settlementPrice − executionPrice) × quantity` for a buy and
`(executionPrice − settlementPrice) × quantity` for a sell, where the
settlement price is the mean of the hour's real-time interval prices; each bid
of the batch yields exactly one result. -/
theorem C1_execution_and_profit_rules :
    ∀ (bids : List Bid) (da : List DayAheadEntry) (rt : List RealTimeEntry)
      (b : Bid) (hd : DayAheadEntry) (rd : RealTimeEntry),
      da.find? (fun d => d.hour == b.hour) = some hd →
      rt.find? (fun r => r.hour == b.hour) = some rd →
      rd.prices ≠ [] →
      (simulateTradeExecution bids da rt).trades = bids.map (processBid da rt) ∧
      ((processBid da rt b).executed = true →
        (processBid da rt b).executionPrice = some hd.price) ∧
      (b.type = "buy" →
        ((processBid da rt b).executed = true ↔ hd.price ≤ b.price)) ∧
      (b.type = "sell" →
        ((processBid da rt b).executed = true ↔ b.price ≤ hd.price)) ∧
      (b.type = "buy" → (processBid da rt b).executed = true →
        (processBid da rt b).profit =
          ((rd.prices.map (·.price)).sum / (rd.prices.length : ℚ) - hd.price) *
            b.quantity) ∧
      (b.type = "sell" → (processBid da rt b).executed = true →
        (processBid da rt b).profit =
          (hd.price - (rd.prices.map (·.price)).sum / (rd.prices.length : ℚ)) *
            b.quantity) := by
  intro bids da rt b hd rd hda hrt _hne
  refine ⟨simulateTradeExecution_trades bids da rt, ?_, ?_, ?_, ?_, ?_⟩ <;>
    simp only [processBid, hda, hrt] <;>
    split_ifs with h1 h2 <;>
    simp_all [Bool.and_eq_true, decide_eq_true_iff, beq_iff_eq]

/-- C1 witness: a boundary buy bid priced exactly at the clearing price
executes at that price with profit `(60 − 50) × 10`. -/
theorem C1_witness :
    ([wDA].find? (fun d => d.hour == wBid.hour) = some wDA ∧
     [wRT].find? (fun r => r.hour == wBid.hour) = some wRT ∧
     wRT.prices ≠ []) ∧
    ((simulateTradeExecution [wBid] [wDA] [wRT]).trades =
        [wBid].map (processBid [wDA] [wRT]) ∧
     ((processBid [wDA] [wRT] wBid).executed = true →
        (processBid [wDA] [wRT] wBid).executionPrice = some wDA.price) ∧
     (wBid.type = "buy" →
        ((processBid [wDA] [wRT] wBid).executed = true ↔ wDA.price ≤ wBid.price)) ∧
     (wBid.type = "sell" →
        ((processBid [wDA] [wRT] wBid).executed = true ↔ wBid.price ≤ wDA.price)) ∧
     (wBid.type = "buy" → (processBid [wDA] [wRT] wBid).executed = true →
        (processBid [wDA] [wRT] wBid).profit =
          ((wRT.prices.map (·.price)).sum / (wRT.prices.length : ℚ) - wDA.price) *
            wBid.quantity) ∧
     (wBid.type = "sell" → (processBid [wDA] [wRT] wBid).executed = true →
        (processBid [wDA] [wRT] wBid).profit =
          (wDA.price - (wRT.prices.map (·.price)).sum / (wRT.prices.length : ℚ)) *
            wBid.quantity)) :=
  ⟨⟨by decide, by decide, by decide⟩,
   C1_execution_and_profit_rules [wBid] [wDA] [wRT] wBid wDA wRT
     (by decide) (by decide) (by decide)⟩

/-- C10: with an empty bid list the engine returns no trades, zero total
profit, zero average profit, and a `successRate` that is the JS `NaN`
(modelled `none`) produced by the unguarded `0 / 0` division. -/
theorem C10_empty_bid_list (da : List DayAheadEntry) (rt : List RealTimeEntry) :
    (simulateTradeExecution [] da rt).trades = [] ∧
    (simulateTradeExecution [] da rt).totalProfit = 0 ∧
    (simulateTradeExecution [] da rt).summary.avgProfitPerTrade = 0 ∧
    (simulateTradeExecution [] da rt).summary.successRate = none ∧
    (simulateTradeExecution [] da rt).summary.totalBids = 0 ∧
    (simulateTradeExecution [] da rt).summary.executedTrades = 0 :=
  ⟨rfl, rfl, rfl, rfl, rfl, rfl⟩

/-- C5 counterexample: a single executing bid yields `successRate = 100`, not
the ratio `1 / 1 = 1` the claim states — the code multiplies by 100. -/
theorem C5_counterexample :
    (simulateTradeExecution [bidBuy100] [daHour0] [rtHour0]).summary.executedTrades = 1 ∧
    (simulateTradeExecution [bidBuy100] [daHour0] [rtHour0]).summary.totalBids = 1 ∧
    (simulateTradeExecution [bidBuy100] [daHour0] [rtHour0]).summary.successRate =
      some 100 ∧
    (100 : ℚ) ≠ (1 : ℚ) / (1 : ℚ) := by
  have hpb : (processBid [daHour0] [rtHour0] bidBuy100).executed = true := by
    simp [processBid, bidBuy100, daHour0, rtHour0]
    norm_num
  refine ⟨rfl, rfl, ?_, by norm_num⟩
  simp only [simulateTradeExecution, List.foldl_cons, List.foldl_nil, simStep]
  simp [hpb]

/-- C5 amended: for a non-empty bid list, `successRate` is the percentage
`(executedTrades / totalBids) × 100`, `totalProfit` is the sum of profits over
executed trades, and `avgProfitPerTrade` is `totalProfit / executedTrades` when
at least one trade executed and `0` otherwise. -/
theorem C5_amended_summary_aggregation :
    ∀ (bids : List Bid) (da : List DayAheadEntry) (rt : List RealTimeEntry),
      bids ≠ [] →
      (simulateTradeExecution bids da rt).summary.successRate =
        some ((((simulateTradeExecution bids da rt).summary.executedTrades : ℚ) /
            ((simulateTradeExecution bids da rt).summary.totalBids : ℚ)) * 100) ∧
      (simulateTradeExecution bids da rt).totalProfit =
        (((simulateTradeExecution bids da rt).trades.filter (fun t => t.executed)).map
          (·.profit)).sum ∧
      (simulateTradeExecution bids da rt).summary.avgProfitPerTrade =
        (if 0 < (simulateTradeExecution bids da rt).summary.executedTrades then
          (simulateTradeExecution bids da rt).totalProfit /
            ((simulateTradeExecution bids da rt).summary.executedTrades : ℚ)
        else 0) := by
  intro bids da rt hne
  refine ⟨?_, simulateTradeExecution_totalProfit bids da rt, ?_⟩
  · have hlen : bids.length ≠ 0 := by simpa [List.length_eq_zero] using hne
    simp [simulateTradeExecution, hlen]
  · rfl

/-- C5 amended witness: the aggregation identities evaluated on a one-bid
batch that executes. -/
theorem C5_amended_witness :
    ([bidBuy100] : List Bid) ≠ [] ∧
    ((simulateTradeExecution [bidBuy100] [daHour0] [rtHour0]).summary.successRate =
        some ((((simulateTradeExecution [bidBuy100] [daHour0] [rtHour0]).summary.executedTrades : ℚ) /
            ((simulateTradeExecution [bidBuy100] [daHour0] [rtHour0]).summary.totalBids : ℚ)) * 100) ∧
     (simulateTradeExecution [bidBuy100] [daHour0] [rtHour0]).totalProfit =
        (((simulateTradeExecution [bidBuy100] [daHour0] [rtHour0]).trades.filter
            (fun t => t.executed)).map (·.profit)).sum ∧
     (simulateTradeExecution [bidBuy100] [daHour0] [rtHour0]).summary.avgProfitPerTrade =
        (if 0 < (simulateTradeExecution [bidBuy100] [daHour0] [rtHour0]).summary.executedTrades then
          (simulateTradeExecution [bidBuy100] [daHour0] [rtHour0]).totalProfit /
            ((simulateTradeExecution [bidBuy100] [daHour0] [rtHour0]).summary.executedTrades : ℚ)
        else 0)) :=
  ⟨by decide, C5_amended_summary_aggregation [bidBuy100] [daHour0] [rtHour0] (by decide)⟩

/-- C6 counterexample: for a bid whose hour has no market data the code leaves
the `reason` key unset and instead populates the `error` key, with the message
`"No market data available for this hour"` — not a `reason` field reading
`"no market data for hour"` as the claim states. -/
theorem C6_counterexample :
    (processBid [daHour12] [rtHour12] bidHour17).executed = false ∧
    (processBid [daHour12] [rtHour12] bidHour17).reason = none ∧
    (processBid [daHour12] [rtHour12] bidHour17).error =
      some "No market data available for this hour" := by
  refine ⟨rfl, rfl, rfl⟩

/-- C6 amended: a bid whose hour lacks a day-ahead or real-time entry is marked
`executed = false` with zero profit and a populated `error` field reading
`"No market data available for this hour"` (the `reason` field stays unset),
and the batch still returns one result per input bid. -/
theorem C6_amended_missing_hour :
    ∀ (bids : List Bid) (da : List DayAheadEntry) (rt : List RealTimeEntry) (b : Bid),
      (da.find? (fun d => d.hour == b.hour) = none ∨
        rt.find? (fun r => r.hour == b.hour) = none) →
      (processBid da rt b).executed = false ∧
      (processBid da rt b).profit = 0 ∧
      (processBid da rt b).error = some "No market data available for this hour" ∧
      (processBid da rt b).reason = none ∧
      (simulateTradeExecution bids da rt).trades.length = bids.length := by
  intro bids da rt b hmiss
  have hlen : (simulateTradeExecution bids da rt).trades.length = bids.length := by
    rw [simulateTradeExecution_trades]; simp
  rcases hmiss with h | h
  · refine ⟨?_, ?_, ?_, ?_, hlen⟩ <;>
      simp only [processBid, h]
  · refine ⟨?_, ?_, ?_, ?_, hlen⟩ <;>
      cases hda : da.find? (fun d => d.hour == b.hour) <;>
      simp only [processBid, h, hda]

/-- C6 amended witness: the missing-hour behaviour evaluated on a concrete
hour-17 bid against hour-12-only market data. -/
theorem C6_amended_witness :
    (([daHour12].find? (fun d => d.hour == bidHour17.hour) = none ∨
      [rtHour12].find? (fun r => r.hour == bidHour17.hour) = none)) ∧
    ((processBid [daHour12] [rtHour12] bidHour17).executed = false ∧
     (processBid [daHour12] [rtHour12] bidHour17).profit = 0 ∧
     (processBid [daHour12] [rtHour12] bidHour17).error =
       some "No market data available for this hour" ∧
     (processBid [daHour12] [rtHour12] bidHour17).reason = none ∧
     (simulateTradeExecution [bidHour17] [daHour12] [rtHour12]).trades.length =
       ([bidHour17] : List Bid).length) :=
  ⟨Or.inl (by decide),
   C6_amended_missing_hour [bidHour17] [daHour12] [rtHour12] bidHour17
     (Or.inl (by decide))⟩

/-- C4 counterexample: two same-location spikes 10 minutes apart where the
*second* has the higher magnitude — deduplication keeps the first-seen,
lower-magnitude spike, not the higher-magnitude one the claim states. -/
theorem C4_counterexample :
    areSpikesDuplicate spikeLow spikeHigh = true ∧
    spikeLow.magnitude < spikeHigh.magnitude ∧
    filterDuplicateSpikes [spikeLow, spikeHigh] = [spikeLow] := by
  refine ⟨by decide, by decide, ?_⟩
  have h : areSpikesDuplicate spikeLow spikeHigh = true := by decide
  simp [filterDuplicateSpikes, dedupAux, h, sortDescMagnitude, insertDesc]

/-- C4 amended: after deduplication no two retained spikes for the same
location lie within 15 minutes, the final list is sorted in descending order
of magnitude, and of a pair of duplicate spikes exactly one is retained — the
one *earlier in the input order* (not necessarily the higher-magnitude one). -/
theorem C4_amended_dedup_behaviour :
    (∀ spikes : List Spike,
      (filterDuplicateSpikes spikes).Pairwise
        (fun a b => areSpikesDuplicate a b = false) ∧
      (filterDuplicateSpikes spikes).Sorted
        (fun a b => b.magnitude ≤ a.magnitude)) ∧
    (∀ s1 s2 : Spike, areSpikesDuplicate s1 s2 = true →
      filterDuplicateSpikes [s1, s2] = [s1]) := by
  constructor
  · intro spikes
    constructor
    · have hd : (dedupAux [] spikes).Pairwise
          (fun a b => areSpikesDuplicate a b = false) :=
        dedupAux_pairwise spikes [] List.Pairwise.nil
      have hsymm : ∀ {x y : Spike},
          areSpikesDuplicate x y = false → areSpikesDuplicate y x = false := by
        intro x y hxy
        rw [areSpikesDuplicate_comm]
        exact hxy
      exact ((sortDescMagnitude_perm (dedupAux [] spikes)).pairwise_iff hsymm).mpr hd
    · exact sortDescMagnitude_sorted _
  · intro s1 s2 h
    simp [filterDuplicateSpikes, dedupAux, h, sortDescMagnitude, insertDesc]

/-- C4 amended witness: a concrete duplicate pair where the first spike is
kept. -/
theorem C4_amended_witness :
    areSpikesDuplicate spikeBigB spikeSmallB = true ∧
    filterDuplicateSpikes [spikeBigB, spikeSmallB] = [spikeBigB] :=
  ⟨by decide, C4_amended_dedup_behaviour.2 spikeBigB spikeSmallB (by decide)⟩

/-- The population variance of a window is non-negative. -/
theorem varianceOf_nonneg (l : List ℚ) : 0 ≤ varianceOf l := by
  unfold varianceOf
  apply div_nonneg
  · apply List.sum_nonneg
    intro x hx
    obtain ⟨p, _, rfl⟩ := List.mem_map.mp hx
    positivity
  · positivity

/-- The square-free encoding of the z-score test agrees with the real-valued
formula `zScore = (stdDev > 0 ? |diff| / √variance : 0)` compared against the
threshold. -/
theorem zScoreExceeds_iff_sqrt (diff v zThr : ℚ) (hv : 0 ≤ v) :
    zScoreExceeds diff v zThr = true ↔
      (zThr : ℝ) <
        (if 0 < Real.sqrt (v : ℝ) then |(diff : ℝ)| / Real.sqrt (v : ℝ) else 0) := by
  rcases lt_or_eq_of_le hv with hpos | hzero
  · have hvR : (0 : ℝ) < (v : ℝ) := by exact_mod_cast hpos
    have hσ : 0 < Real.sqrt (v : ℝ) := Real.sqrt_pos.mpr hvR
    rw [if_pos hσ]
    unfold zScoreExceeds
    rw [if_pos hpos]
    simp only [Bool.or_eq_true, decide_eq_true_eq]
    constructor
    · rintro (hneg | hsq)
      · have hlt : (zThr : ℝ) < 0 := by exact_mod_cast hneg
        exact lt_of_lt_of_le hlt (by positivity)
      · rcases lt_or_le zThr 0 with hneg | hpos'
        · have hlt : (zThr : ℝ) < 0 := by exact_mod_cast hneg
          exact lt_of_lt_of_le hlt (by positivity)
        · have hposR : (0 : ℝ) ≤ (zThr : ℝ) := by exact_mod_cast hpos'
          have hsqR : (zThr : ℝ) ^ 2 * (v : ℝ) < (diff : ℝ) ^ 2 := by exact_mod_cast hsq
          rw [lt_div_iff₀ hσ]
          nlinarith [Real.sq_sqrt hvR.le, Real.sqrt_nonneg (v : ℝ),
            abs_nonneg (diff : ℝ), sq_abs (diff : ℝ)]
    · intro hlt
      rcases lt_or_le zThr 0 with hneg | hpos'
      · exact Or.inl hneg
      · right
        have hposR : (0 : ℝ) ≤ (zThr : ℝ) := by exact_mod_cast hpos'
        rw [lt_div_iff₀ hσ] at hlt
        have hsq2 := mul_self_lt_mul_self
          (by positivity : (0 : ℝ) ≤ (zThr : ℝ) * Real.sqrt (v : ℝ)) hlt
        have hR : (zThr : ℝ) ^ 2 * (v : ℝ) < (diff : ℝ) ^ 2 := by
          nlinarith [Real.sq_sqrt hvR.le, Real.sqrt_nonneg (v : ℝ),
            abs_nonneg (diff : ℝ), sq_abs (diff : ℝ)]
        exact_mod_cast hR
  · subst hzero
    unfold zScoreExceeds
    rw [if_neg (lt_irrefl 0)]
    simp only [Rat.cast_zero, Real.sqrt_zero, lt_irrefl, if_false, decide_eq_true_eq]
    constructor <;> intro h <;> exact_mod_cast h

/-- A list with all elements equal sums to its length times that element. -/
theorem sum_of_const {l : List ℚ} {c : ℚ} (h : ∀ x ∈ l, x = c) :
    l.sum = (l.length : ℚ) * c := by
  induction l with
  | nil => simp
  | cons a t ih =>
      have ha := h a (List.mem_cons_self a t)
      have ht := fun x hx => h x (List.mem_cons_of_mem a hx)
      simp only [List.sum_cons, ih ht, List.length_cons, ha]
      push_cast
      ring

/-- The mean of a non-empty constant list is the constant. -/
theorem meanOf_const {l : List ℚ} {c : ℚ} (hne : l ≠ []) (h : ∀ x ∈ l, x = c) :
    meanOf l = c := by
  unfold meanOf
  rw [sum_of_const h]
  have hlen : (l.length : ℚ) ≠ 0 := by
    have := List.length_pos.mpr hne
    exact_mod_cast this.ne'
  field_simp

/-- C7: for every location series and index `i ≥ 6`, the detector flags `i`
iff `(zScore > zScoreThreshold ∧ magnitude > minMagnitude) ∨ magnitude >
2 × minMagnitude`, where the window is the six preceding samples,
`zScore = |price[i] − μ| / σ` (0 when `σ = 0`) and `magnitude = |price[i] − μ|`;
consequently a constant-price series yields zero spikes whenever
`minMagnitude > 0`. -/
theorem C7_trigger_rule :
    (∀ (prices : List PricePoint) (i : ℕ) (location : String) (config : Thresholds)
        (pricePoint : PricePoint),
      WINDOW_SIZE ≤ i → prices[i]? = some pricePoint →
      ((detectSpikeAtIndex prices i location config).isSome = true ↔
        (let window := ((prices.drop (i - WINDOW_SIZE)).take WINDOW_SIZE).map (·.price)
         let mean := meanOf window
         let diff := pricePoint.price - mean
         let stdDev : ℝ := Real.sqrt ((varianceOf window : ℚ) : ℝ)
         let zScore : ℝ := if 0 < stdDev then |(diff : ℝ)| / stdDev else 0
         (((config.zScoreThreshold : ℚ) : ℝ) < zScore ∧
             config.minMagnitude < |diff|) ∨
           config.minMagnitude * 2 < |diff|))) ∧
    (∀ (location : String) (prices : List PricePoint) (c : ℚ) (config : Thresholds),
      0 < config.minMagnitude → prices ≠ [] →
      (∀ pp ∈ prices, pp.price = c) →
      detectSpikes [⟨location, prices⟩] config = Except.ok []) := by
  constructor
  · intro prices i location config pricePoint _hiw hpp
    simp only [detectSpikeAtIndex, hpp]
    constructor
    · intro hsome
      by_cases hdet : isSpikeDetectedQ
          (pricePoint.price -
            meanOf (((prices.drop (i - WINDOW_SIZE)).take WINDOW_SIZE).map (·.price)))
          (varianceOf (((prices.drop (i - WINDOW_SIZE)).take WINDOW_SIZE).map (·.price)))
          config = true
      · revert hdet
        simp only [isSpikeDetectedQ, Bool.or_eq_true, Bool.and_eq_true,
          decide_eq_true_eq]
        rw [zScoreExceeds_iff_sqrt _ _ _ (varianceOf_nonneg _)]
        exact id
      · rw [if_neg (by simpa using hdet)] at hsome
        simp at hsome
    · intro hform
      have hdet : isSpikeDetectedQ
          (pricePoint.price -
            meanOf (((prices.drop (i - WINDOW_SIZE)).take WINDOW_SIZE).map (·.price)))
          (varianceOf (((prices.drop (i - WINDOW_SIZE)).take WINDOW_SIZE).map (·.price)))
          config = true := by
        simp only [isSpikeDetectedQ, Bool.or_eq_true, Bool.and_eq_true,
          decide_eq_true_eq]
        rw [zScoreExceeds_iff_sqrt _ _ _ (varianceOf_nonneg _)]
        exact hform
      rw [if_pos hdet]
      rfl
  · intro location prices c config hmin hne hconst
    have hnemp : prices.isEmpty = false := by
      cases prices with
      | nil => exact absurd rfl hne
      | cons a t => rfl
    have hals : analyzeLocationSpikes ⟨location, prices⟩ config = [] := by
      unfold analyzeLocationSpikes
      dsimp only
      rw [List.filterMap_eq_nil_iff]
      intro i hi
      obtain ⟨hi6, hilt⟩ := List.mem_range'_1.mp hi
      have hilen : i < prices.length := by omega
      unfold detectSpikeAtIndex
      rw [List.getElem?_eq_getElem hilen]
      dsimp only
      have hwc : ∀ x ∈ ((prices.drop (i - WINDOW_SIZE)).take WINDOW_SIZE).map
          (·.price), x = c := by
        intro x hx
        obtain ⟨p, hp, rfl⟩ := List.mem_map.mp hx
        exact hconst p (List.drop_subset _ _ (List.take_subset _ _ hp))
      have hwne : ((prices.drop (i - WINDOW_SIZE)).take WINDOW_SIZE).map
          (·.price) ≠ [] := by
        apply List.ne_nil_of_length_pos
        simp only [List.length_map, List.length_take, List.length_drop]
        have hW : WINDOW_SIZE = 6 := rfl
        omega
      have hmean : meanOf (((prices.drop (i - WINDOW_SIZE)).take WINDOW_SIZE).map
          (·.price)) = c := meanOf_const hwne hwc
      have hpc : prices[i].price = c := hconst _ (List.getElem_mem hilen)
      have hdiff : prices[i].price -
          meanOf (((prices.drop (i - WINDOW_SIZE)).take WINDOW_SIZE).map
            (·.price)) = 0 := by
        rw [hpc, hmean]; ring
      have h1 : ¬ config.minMagnitude < 0 := not_lt.mpr hmin.le
      have h2 : ¬ config.minMagnitude * 2 < 0 := by
        apply not_lt.mpr
        positivity
      have hdet : isSpikeDetectedQ
          (prices[i].price -
            meanOf (((prices.drop (i - WINDOW_SIZE)).take WINDOW_SIZE).map (·.price)))
          (varianceOf (((prices.drop (i - WINDOW_SIZE)).take WINDOW_SIZE).map (·.price)))
          config = false := by
        simp only [isSpikeDetectedQ]
        rw [hdiff]
        simp only [abs_zero]
        rw [decide_eq_false h1, decide_eq_false h2]
        simp
      rw [if_neg (by rw [hdet]; simp)]
    unfold detectSpikes
    rw [if_neg (by simp), if_neg (by simp [hnemp])]
    have hflat : ([(⟨location, prices⟩ : LocationPriceData)].flatMap
        (fun ld => analyzeLocationSpikes ld config)) =
        analyzeLocationSpikes ⟨location, prices⟩ config ++ [] := rfl
    rw [hflat, List.append_nil, hals]
    rfl

/-- C7 witness: the constant-series conclusion evaluated on a concrete
seven-sample flat series with the default thresholds. -/
theorem C7_witness :
    0 < DEFAULT_THRESHOLDS.minMagnitude ∧ constSeries ≠ [] ∧
    (∀ pp ∈ constSeries, pp.price = 20) ∧
    detectSpikes [⟨"LOC_A", constSeries⟩] DEFAULT_THRESHOLDS = Except.ok [] :=
  ⟨by norm_num [DEFAULT_THRESHOLDS], by decide, by decide,
   C7_trigger_rule.2 "LOC_A" constSeries 20 DEFAULT_THRESHOLDS
     (by norm_num [DEFAULT_THRESHOLDS]) (by decide) (by decide)⟩

/-- C8: severity is decided by strict magnitude comparisons — `>50` critical,
`>25` high, `>10` medium, else low — so a magnitude of exactly 50 is `high`
and 50.01 is `critical`. -/
theorem C8_severity_breakpoints :
    (∀ m : ℚ,
      (calculateSeverity m = "critical" ↔ 50 < m) ∧
      (calculateSeverity m = "high" ↔ 25 < m ∧ m ≤ 50) ∧
      (calculateSeverity m = "medium" ↔ 10 < m ∧ m ≤ 25) ∧
      (calculateSeverity m = "low" ↔ m ≤ 10)) ∧
    calculateSeverity 50 = "high" ∧
    calculateSeverity 50.01 = "critical" := by
  refine ⟨?_, ?_, ?_⟩
  · intro m
    simp only [calculateSeverity, SEVERITY_THRESHOLDS]
    split_ifs with h1 h2 h3
    · exact ⟨iff_of_true rfl h1,
        iff_of_false (by decide) (by rintro ⟨_, h⟩; linarith),
        iff_of_false (by decide) (by rintro ⟨_, h⟩; linarith),
        iff_of_false (by decide) (by intro h; linarith)⟩
    · exact ⟨iff_of_false (by decide) h1,
        iff_of_true rfl ⟨h2, not_lt.mp h1⟩,
        iff_of_false (by decide) (by rintro ⟨h, _⟩; linarith),
        iff_of_false (by decide) (by intro h; linarith)⟩
    · exact ⟨iff_of_false (by decide) h1,
        iff_of_false (by decide) (fun hh => h2 hh.1),
        iff_of_true rfl ⟨h3, not_lt.mp h2⟩,
        iff_of_false (by decide) (by intro h; linarith)⟩
    · exact ⟨iff_of_false (by decide) h1,
        iff_of_false (by decide) (fun hh => h2 hh.1),
        iff_of_false (by decide) (fun hh => h3 hh.1),
        iff_of_true rfl (not_lt.mp h3)⟩
  · norm_num [calculateSeverity, SEVERITY_THRESHOLDS]
  · norm_num [calculateSeverity, SEVERITY_THRESHOLDS]

/-- Hours absent from the group list get no event. -/
theorem createEvents_countP_zero (timeGroups : List (ℕ × List Spike)) (h : ℕ)
    (hnot : h ∉ timeGroups.map Prod.fst) :
    (createEventsFromTimeGroups timeGroups).countP (fun e => e.hour == h) = 0 := by
  rw [List.countP_eq_zero]
  intro e he
  obtain ⟨g, hgmem, hfg⟩ := List.mem_filterMap.mp he
  by_cases hg2 : 2 ≤ g.2.length
  · rw [if_pos hg2] at hfg
    injection hfg with hev
    subst hev
    simp only [beq_iff_eq]
    intro hcontra
    exact hnot (hcontra ▸ List.mem_map.mpr ⟨g, hgmem, rfl⟩)
  · rw [if_neg hg2] at hfg
    cases hfg

/-- C9 counterexample: an hour group of four spikes of magnitude 10 yields an
event of confidence `0.85` (the code caps the count bonus at `0.3` *before*
summing), while the claimed formula `min(0.5 + 0.1·count + avg/200, 0.95)`
gives `0.95`. -/
theorem C9_counterexample :
    (createEventsFromTimeGroups
        [(9, [spikeMag10, spikeMag10, spikeMag10, spikeMag10])]).map
      (fun e => e.confidence) = [0.85] ∧
    min (0.5 + 0.1 * (([spikeMag10, spikeMag10, spikeMag10, spikeMag10].length : ℚ)) +
        calculateAverageMagnitude [spikeMag10, spikeMag10, spikeMag10, spikeMag10] / 200)
      0.95 = 0.95 ∧
    (0.85 : ℚ) ≠ 0.95 := by
  refine ⟨?_, ?_, by norm_num⟩
  · norm_num [createEventsFromTimeGroups, List.filterMap_cons, List.filterMap_nil,
      calculateEventConfidence, calculateAverageMagnitude, spikeMag10]
  · norm_num [calculateAverageMagnitude, spikeMag10]

/-- C9 amended: every produced event comes from a group of at least two spikes
for its hour with confidence
`min(0.5 + min(0.1·count, 0.3) + min(avgMagnitude/200, 0.2), 0.95)` (each
bonus capped separately), and under distinct group hours an hour group
produces exactly one event iff it has at least two spikes, none otherwise. -/
theorem C9_amended_event_synthesis :
    (∀ (timeGroups : List (ℕ × List Spike)) (e : GridEvent),
      e ∈ createEventsFromTimeGroups timeGroups →
      ∃ g ∈ timeGroups, 2 ≤ g.2.length ∧ e.hour = g.1 ∧
        e.confidence =
          min (0.5 + min ((g.2.length : ℚ) * 0.1) 0.3 +
            min (((g.2.map (fun s => s.magnitude)).sum / (g.2.length : ℚ)) / 200) 0.2)
            0.95) ∧
    (∀ (timeGroups : List (ℕ × List Spike)) (h : ℕ) (ss : List Spike),
      (timeGroups.map Prod.fst).Nodup → (h, ss) ∈ timeGroups →
      (createEventsFromTimeGroups timeGroups).countP (fun e => e.hour == h) =
        if 2 ≤ ss.length then 1 else 0) := by
  constructor
  · intro timeGroups e he
    obtain ⟨g, hgmem, hfg⟩ := List.mem_filterMap.mp he
    by_cases hg2 : 2 ≤ g.2.length
    · rw [if_pos hg2] at hfg
      injection hfg with hev
      subst hev
      exact ⟨g, hgmem, hg2, rfl, rfl⟩
    · rw [if_neg hg2] at hfg
      cases hfg
  · intro timeGroups
    induction timeGroups with
    | nil =>
        intro h ss _ hmem
        simp at hmem
    | cons g gs ih =>
        intro h ss hnd hmem
        rw [List.map_cons, List.nodup_cons] at hnd
        obtain ⟨hg1, hndgs⟩ := hnd
        rcases List.mem_cons.mp hmem with heq | hmem'
        · have hgh : g.1 = h := by rw [← heq]
          have hglen : g.2 = ss := by rw [← heq]
          simp only [createEventsFromTimeGroups, List.filterMap_cons]
          have hz := createEvents_countP_zero gs h (hgh ▸ hg1)
          unfold createEventsFromTimeGroups at hz
          by_cases hss : 2 ≤ g.2.length
          · rw [if_pos hss]
            dsimp only
            rw [List.countP_cons, hz]
            have hss' : 2 ≤ ss.length := hglen ▸ hss
            rw [if_pos hss']
            simp [beq_iff_eq, hgh]
          · rw [if_neg hss]
            dsimp only
            rw [hz]
            have hss' : ¬ 2 ≤ ss.length := hglen ▸ hss
            rw [if_neg hss']
        · have hne : g.1 ≠ h := by
            intro hcontra
            exact hg1 (hcontra ▸ List.mem_map.mpr ⟨(h, ss), hmem', rfl⟩)
          have htail := ih h ss hndgs hmem'
          unfold createEventsFromTimeGroups at htail
          simp only [createEventsFromTimeGroups, List.filterMap_cons]
          by_cases hg2 : 2 ≤ g.2.length
          · rw [if_pos hg2]
            dsimp only
            rw [List.countP_cons, htail]
            simp [beq_iff_eq, hne]
          · rw [if_neg hg2]
            dsimp only
            rw [htail]

/-- C9 amended witness: the exactly-one-event rule evaluated on a concrete
four-spike hour group. -/
theorem C9_amended_witness :
    (([(9, [spikeMag10, spikeMag10, spikeMag10, spikeMag10])] :
        List (ℕ × List Spike)).map Prod.fst).Nodup ∧
    ((9 : ℕ), [spikeMag10, spikeMag10, spikeMag10, spikeMag10]) ∈
      ([(9, [spikeMag10, spikeMag10, spikeMag10, spikeMag10])] :
        List (ℕ × List Spike)) ∧
    (createEventsFromTimeGroups
        [(9, [spikeMag10, spikeMag10, spikeMag10, spikeMag10])]).countP
      (fun e => e.hour == 9) =
      if 2 ≤ ([spikeMag10, spikeMag10, spikeMag10, spikeMag10] : List Spike).length
      then 1 else 0 :=
  ⟨by decide, by decide,
   C9_amended_event_synthesis.2
     [(9, [spikeMag10, spikeMag10, spikeMag10, spikeMag10])] 9
     [spikeMag10, spikeMag10, spikeMag10, spikeMag10] (by decide) (by decide)⟩

/-- C2 witness: the shape invariants evaluated on a concrete input containing
a malformed record. -/
theorem C2_witness :
    (transformGridStatusData [badRecord] [] (fun h => h) (fun _ _ => 1)).dayAheadPrices.length = 24 ∧
    (transformGridStatusData [badRecord] [] (fun h => h) (fun _ _ => 1)).realTimePrices.length = 24 :=
  ⟨(C2_reconstruction_invariants [badRecord] [] (fun h => h) (fun _ _ => 1)).1,
   (C2_reconstruction_invariants [badRecord] [] (fun h => h) (fun _ _ => 1)).2.1⟩

/-- C8 witness: the breakpoint characterisation evaluated at concrete
magnitudes. -/
theorem C8_witness :
    calculateSeverity 51 = "critical" ∧ calculateSeverity 30 = "high" :=
  ⟨(C8_severity_breakpoints.1 51).1.mpr (by norm_num),
   (C8_severity_breakpoints.1 30).2.1.mpr (by norm_num)⟩

/-- C10 witness: the empty-batch behaviour evaluated against concrete market
data. -/
theorem C10_witness :
    (simulateTradeExecution [] [daHour0] [rtHour0]).trades = [] ∧
    (simulateTradeExecution [] [daHour0] [rtHour0]).summary.successRate = none :=
  ⟨(C10_empty_bid_list [daHour0] [rtHour0]).1,
   (C10_empty_bid_list [daHour0] [rtHour0]).2.2.2.1⟩
